import Mathlib

/-!
Shallow embedding of the quiz-session core of the Debug Arena repository.

The embedding covers:
* `normalizeCode` and the answer-verification procedure of
  `src/pages/QuizPage.tsx` (`handleSubmitAnswer`, `handleAutoSubmit`);
* the assignment loader `fetchQuizData` (question-order stability, the
  random shuffle, and the resume-index computation);
* the submission engine as an event-driven state machine (the
  `isSubmitting` guard and the advance logic);
* the leaderboard aggregation and scoring of `fetchLeaderboard`.

JavaScript strings are modelled as `String`/`List Char`; JavaScript
numbers that stay integral are modelled as `Nat`/`Int`, and the one
fractional computation (average seconds per question) as `ℚ` with an
explicit floor-based model of `Math.round`.
-/

namespace DebugArena

/-- Whitespace class of a character under the ECMAScript `\s` regex class
(also the character set removed by `String.prototype.trim`). -/
def jsWs (c : Char) : Bool :=
  let n := c.toNat
  n == 9 || n == 10 || n == 11 || n == 12 || n == 13 || n == 32 ||
  n == 0xa0 || n == 0x1680 || (0x2000 ≤ n && n ≤ 0x200a) ||
  n == 0x2028 || n == 0x2029 || n == 0x202f || n == 0x205f ||
  n == 0x3000 || n == 0xfeff

/-- Line terminators excluded by `.` in a JavaScript regex
(relevant to the `//.*` line-comment pattern). -/
def jsLineTerm (c : Char) : Bool :=
  let n := c.toNat
  n == 10 || n == 13 || n == 0x2028 || n == 0x2029

/-- Right trim: drop trailing JavaScript whitespace. -/
def trimRightJS (l : List Char) : List Char :=
  (l.reverse.dropWhile jsWs).reverse

/-- Embedding of JavaScript `String.prototype.trim` (both ends), factored
as a left trim after a right trim. -/
def jsTrim (l : List Char) : List Char :=
  (trimRightJS l).dropWhile jsWs

/-- Given the characters after an opening `/*`, find the position right
after the first closing `*/` (the non-greedy `[\s\S]*?\*\/` match);
`none` when the block comment is unterminated. -/
def afterBlockEnd : List Char → Option (List Char)
  | [] => none
  | c :: rest =>
    match rest with
    | [] => none
    | d :: rest2 => if c = '*' ∧ d = '/' then some rest2 else afterBlockEnd rest

/-- First replacement step of `normalizeCode`, with a fuel argument that
matches the input length so the recursion is structural: the global regex
removing block comments through their first closing `*/` and line
comments up to (not including) the next line terminator; an unterminated
`/*` stays in place while scanning continues one character later, exactly
as the regex engine advances after a failed match. -/
def stripCommentsFuel : Nat → List Char → List Char
  | 0, l => l
  | _ + 1, [] => []
  | fuel + 1, '/' :: '*' :: rest =>
    match afterBlockEnd rest with
    | some rest2 => stripCommentsFuel fuel rest2
    | none => '/' :: stripCommentsFuel fuel ('*' :: rest)
  | fuel + 1, '/' :: '/' :: rest =>
    stripCommentsFuel fuel (rest.dropWhile (fun c => !(jsLineTerm c)))
  | fuel + 1, c :: rest => c :: stripCommentsFuel fuel rest

/-- Embedding of the first `normalizeCode` replacement, the global regex
`/\/\*[\s\S]*?\*\/|\/\/.*/g` with an empty replacement. -/
def stripComments (l : List Char) : List Char :=
  stripCommentsFuel l.length l

/-- Second replacement step of `normalizeCode` (fuel = input length): the
global regex `/\s+/g` replaced by a single space, collapsing every
whitespace run. -/
def collapseWsFuel : Nat → List Char → List Char
  | 0, l => l
  | _ + 1, [] => []
  | fuel + 1, c :: rest =>
    if jsWs c then ' ' :: collapseWsFuel fuel (rest.dropWhile jsWs)
    else c :: collapseWsFuel fuel rest

/-- Embedding of the second `normalizeCode` replacement. -/
def collapseWs (l : List Char) : List Char :=
  collapseWsFuel l.length l

/-- Structural punctuation class of the third `normalizeCode` regex,
`[{}();,]`. -/
def isStructPunct (c : Char) : Bool :=
  c == '\x7b' || c == '\x7d' || c == '(' || c == ')' || c == ';' || c == ','

/-- Third replacement step of `normalizeCode` (fuel = input length): the
global regex `/\s*([{}();,])\s*/g` replaced by the captured punctuation
character, removing whitespace around structural punctuation. At each
scan position the greedy `\s*` run must be followed by a punctuation
character for the match to succeed; otherwise the engine keeps the
character and advances by one. -/
def stripPunctWsFuel : Nat → List Char → List Char
  | 0, l => l
  | _ + 1, [] => []
  | fuel + 1, c :: rest =>
    match (c :: rest).dropWhile jsWs with
    | p :: rest2 =>
      if isStructPunct p then p :: stripPunctWsFuel fuel (rest2.dropWhile jsWs)
      else c :: stripPunctWsFuel fuel rest
    | [] => c :: stripPunctWsFuel fuel rest

/-- Embedding of the third `normalizeCode` replacement. -/
def stripPunctWs (l : List Char) : List Char :=
  stripPunctWsFuel l.length l

/-- Embedding of `normalizeCode` from `src/pages/QuizPage.tsx`: strip
comments, collapse whitespace runs to single spaces, remove whitespace
around structural punctuation, trim, lower-case. The result is kept as a
character list (JavaScript string value). -/
def normalizeCode (s : String) : List Char :=
  (jsTrim (stripPunctWs (collapseWs (stripComments s.data)))).map Char.toLower

/-! ## Data model (section 3 of the spec, `interface` blocks of `QuizPage.tsx`) -/

/-- Quiz row as read by `QuizPage.tsx`. -/
structure Quiz where
  id : String
  title : String
  description : Option String
  time_per_question : Nat
  language : String
deriving DecidableEq, Repr

/-- Question row as read by `QuizPage.tsx`. -/
structure Question where
  id : String
  quiz_id : String
  title : String
  incorrect_code : String
  correct_code : String
  expected_output : String
  language : String
  order_index : Nat
deriving DecidableEq, Repr

/-- Submission row as inserted by `handleSubmitAnswer`. -/
structure Submission where
  assignment_id : String
  question_id : String
  user_code : String
  is_correct : Bool
  time_taken : Nat
deriving DecidableEq, Repr

/-! ## Verification procedure (`handleSubmitAnswer`, lines 344-381) -/

/-- Parsed `run` object of an execution-service response
(`data.run.stdout`, `data.run.stderr`; either field may be absent). -/
structure RunOutput where
  stdout : Option String
  stderr : Option String
deriving DecidableEq, Repr

/-- Outcome of the `fetch` + `response.json()` pair inside
`handleSubmitAnswer`: `threw` covers a network error or an unparseable
body (an exception reaching the `catch`); `ok r` is a parsed body whose
`run` field is `r` (possibly absent). -/
inductive ExecResult where
  | threw : ExecResult
  | ok : Option RunOutput → ExecResult
deriving DecidableEq, Repr

/-- Embedding of the `isCorrect` computation of `handleSubmitAnswer`:
when the question has a (truthy, hence non-empty) expected output, run
the code remotely and mark correct exactly when `data.run` is present and
`data.run.stdout?.trim()` equals the trimmed expected output; an
exception from the attempt falls back to normalized code equality; when
no expected output is set, use normalized code equality directly. -/
def decideCorrect (q : Question) (userCode : String) (exec : ExecResult) : Bool :=
  if q.expected_output ≠ "" then
    match exec with
    | .threw => normalizeCode userCode = normalizeCode q.correct_code
    | .ok none => false
    | .ok (some r) =>
      match r.stdout with
      | none => false
      | some out => jsTrim out.data = jsTrim q.expected_output.data
  else
    normalizeCode userCode = normalizeCode q.correct_code

/-! ## The submit handler and its render snapshot -/

/-- Values of the `useState`/`useParams` cells of `QuizPage` that
`handleSubmitAnswer` reads. A React closure reads the values of the
render in which it was created, so the handler is modelled as a function
of the snapshot it closed over. -/
structure QuizPageState where
  assignmentId : Option String
  loading : Bool
  quiz : Option Quiz
  questions : List Question
  currentQuestionIndex : Nat
  userCode : String
  isSubmitting : Bool
  quizCompleted : Bool
  timeLeft : Nat
deriving DecidableEq, Repr

/-- State of the first render: `useState(true)` for `loading`,
`useState([])` for `questions`, `useState(0)` for the index,
`useState` of the empty string for the buffer, `useState(false)` for `isSubmitting` and
`quizCompleted`, `useState(150)` for the clock; the route parameter is
already available. -/
def initialQuizPageState (aid : Option String) : QuizPageState :=
  { assignmentId := aid
    loading := true
    quiz := none
    questions := []
    currentQuestionIndex := 0
    userCode := ""
    isSubmitting := false
    quizCompleted := false
    timeLeft := 150 }

/-- Derived value `const currentQuestion = questions[currentQuestionIndex]`. -/
def currentQuestion (s : QuizPageState) : Option Question :=
  s.questions[s.currentQuestionIndex]?

/-- Observable outcome of one `handleSubmitAnswer` invocation.
`requested` is the row handed to the `submissions` insert; `inserted` is
the row that actually became durable (the code never inspects the insert
result, so `requested` is independent of `insertOk` while `inserted` is
not); `advanced`/`completeTriggered` describe the post-insert control
flow; `surfacedError` records whether any failure notification was
produced (the handler has none). -/
structure SubmitOutcome where
  ran : Bool
  requested : Option Submission
  inserted : Option Submission
  advanced : Bool
  completeTriggered : Bool
  surfacedError : Bool
  newIndex : Nat
deriving DecidableEq, Repr

/-- Outcome of a guarded-out invocation (early `return`). -/
def noopOutcome (snap : QuizPageState) : SubmitOutcome :=
  { ran := false, requested := none, inserted := none, advanced := false,
    completeTriggered := false, surfacedError := false,
    newIndex := snap.currentQuestionIndex }

/-- Embedding of `handleSubmitAnswer` over the render snapshot `snap` it
closed over. `exec` is the outcome of the execution-service attempt,
`timeTaken` the already-rounded elapsed seconds, and `insertOk` whether
the storage write succeeded (the code ignores the insert result, so the
control flow below never consults `insertOk`). -/
def handleSubmitAnswer (snap : QuizPageState) (exec : ExecResult)
    (timeTaken : Nat) (insertOk : Bool) : SubmitOutcome :=
  match currentQuestion snap, snap.assignmentId with
  | some q, some aid =>
    if snap.isSubmitting then noopOutcome snap
    else
      let isCorrect := decideCorrect q snap.userCode exec
      let row : Submission :=
        { assignment_id := aid, question_id := q.id,
          user_code := snap.userCode, is_correct := isCorrect,
          time_taken := timeTaken }
      if snap.currentQuestionIndex < snap.questions.length - 1 then
        { ran := true, requested := some row,
          inserted := if insertOk then some row else none,
          advanced := true, completeTriggered := false,
          surfacedError := false, newIndex := snap.currentQuestionIndex + 1 }
      else
        { ran := true, requested := some row,
          inserted := if insertOk then some row else none,
          advanced := false, completeTriggered := true,
          surfacedError := false, newIndex := snap.currentQuestionIndex }
  | _, _ => noopOutcome snap

/-- Embedding of `handleAutoSubmit`. The source wraps the call in
`useCallback(() => { handleSubmitAnswer(); }, [])`: the empty dependency
array memoizes the closure created in the first render for the lifetime
of the component, and the interval callback installed by the timer effect
invokes that memoized value. The `handleSubmitAnswer` it references is
therefore the one that closed over the first-render state. -/
def handleAutoSubmit (aid : Option String) (exec : ExecResult)
    (timeTaken : Nat) (insertOk : Bool) : SubmitOutcome :=
  handleSubmitAnswer (initialQuizPageState aid) exec timeTaken insertOk

/-- Embedding of the interval tick (timer effect, lines 98-106): the
remaining time is decremented each second and, on reaching the boundary
(`prev <= 1`), `handleAutoSubmit()` fires and the clock pins to zero.
Returns the new remaining time and whether the auto-submit path fired. -/
def timerTick (timeLeft : Nat) : Nat × Bool :=
  if timeLeft ≤ 1 then (0, true) else (timeLeft - 1, false)

/-! ## Assignment loader (`fetchQuizData`, lines 202-256) -/

/-- Persisted `question_orders` row. -/
structure OrderRow where
  assignment_id : String
  question_id : String
  order_index : Nat
deriving DecidableEq, Repr

/-- Stored collections the loader touches. -/
structure Db where
  questions : List Question
  question_orders : List OrderRow
  submissions : List Submission
deriving DecidableEq, Repr

/-- Ordering used by the `order_index` ordering of the `question_orders`
query. -/
def orderRowLe (a b : OrderRow) : Prop :=
  a.order_index ≤ b.order_index

instance : DecidableRel orderRowLe := fun a b => Nat.decLe a.order_index b.order_index

instance : IsTotal OrderRow orderRowLe :=
  ⟨fun a b => Nat.le_total a.order_index b.order_index⟩

instance : IsTrans OrderRow orderRowLe :=
  ⟨fun _ _ _ h1 h2 => Nat.le_trans h1 h2⟩

/-- Rows of `question_orders` for one assignment, sorted by rank. -/
def orderRowsFor (db : Db) (aid : String) : List OrderRow :=
  List.insertionSort orderRowLe
    (db.question_orders.filter (fun r => r.assignment_id == aid))

/-- Join `question:questions(*)` of the order query: resolve a row to its
question, `none` when the foreign row is missing (dropped by
`.filter(Boolean)`). -/
def joinQuestion (db : Db) (r : OrderRow) : Option Question :=
  db.questions.find? (fun q => q.id == r.question_id)

/-- Identifiers of the already-answered questions of an assignment
(`submissions.map(s => s.question_id)` collected into a set). -/
def answeredIds (db : Db) (aid : String) : List String :=
  (db.submissions.filter (fun s => s.assignment_id == aid)).map
    (fun s => s.question_id)

/-- Question sequence of an assignment with a persisted order: the rows
sorted by rank, each resolved to its question. -/
def orderedQuestionsOf (db : Db) (aid : String) : List Question :=
  (orderRowsFor db aid).filterMap (joinQuestion db)

/-- JavaScript `Array.prototype.findIndex`: index of the first element
satisfying the predicate, `-1` when there is none. -/
def jsFindIndex {α : Type} (p : α → Bool) (l : List α) : Int :=
  match l.findIdx? p with
  | some i => (i : Int)
  | none => -1

/-- One comparator call of `[...questionsData].sort(() => Math.random() - 0.5)`
draws a fresh random number; the sign decides which element goes first,
each side with probability one half, so a call is modelled as consuming
one fair coin. ECMAScript leaves `sort` under an inconsistent comparator
implementation-defined (any comparison sort is a conforming refinement);
the embedding fixes a stable insertion sort. `coinOrderedInsert` inserts
one element into the already-processed part, consuming one coin per
comparison, and returns the remaining coins. -/
def coinOrderedInsert {α : Type} : List Bool → α → List α → List α × List Bool
  | coins, a, [] => ([a], coins)
  | coins, a, b :: l =>
    if coins.headD true then (a :: b :: l, coins.tail)
    else
      let r := coinOrderedInsert coins.tail a l
      (b :: r.1, r.2)

/-- Insertion sort driven by a coin stream (see `coinOrderedInsert`). -/
def coinInsertionSort {α : Type} : List Bool → List α → List α × List Bool
  | coins, [] => ([], coins)
  | coins, a :: l =>
    let r := coinInsertionSort coins l
    coinOrderedInsert r.2 a r.1

/-- Embedding of the random-comparator shuffle
`[...questionsData].sort(() => Math.random() - 0.5)`. -/
def shuffleJS {α : Type} (coins : List Bool) (l : List α) : List α :=
  (coinInsertionSort coins l).1

/-- Result of one `fetchQuizData` call: the question sequence handed to
the session, the computed resume index, whether completion fired at load
time, whether the assignment was marked started, and the stored state
after the loader side effects. -/
structure LoadResult where
  questions : List Question
  currentQuestionIndex : Nat
  completeTriggered : Bool
  markedStarted : Bool
  db : Db
deriving DecidableEq, Repr

/-- Embedding of the question-sequence part of `fetchQuizData`
(lines 202-249). When `question_orders` rows exist for the assignment
they are used verbatim, sorted by rank, the resume index is computed from
the existing submissions, and completion fires when every question is
answered; otherwise the quiz questions are shuffled with the random
comparator, persisted with `order_index` equal to position, and the
assignment is marked started. -/
def fetchQuizData (db : Db) (aid : String) (quizId : String)
    (coins : List Bool) : LoadResult :=
  let orderData := orderRowsFor db aid
  if orderData.length > 0 then
    let orderedQuestions := orderedQuestionsOf db aid
    let answered := answeredIds db aid
    let nextIndex : Int :=
      jsFindIndex (fun q => !(answered.contains q.id)) orderedQuestions
    { questions := orderedQuestions
      currentQuestionIndex :=
        if nextIndex = -1 then orderedQuestions.length else nextIndex.toNat
      completeTriggered :=
        decide (nextIndex = -1 ∨ (orderedQuestions.length : Int) ≤ nextIndex)
      markedStarted := false
      db := db }
  else
    let questionsData := db.questions.filter (fun q => q.quiz_id == quizId)
    let shuffled := shuffleJS coins questionsData
    let orders := shuffled.enum.map (fun p =>
      { assignment_id := aid, question_id := p.2.id,
        order_index := p.1 : OrderRow })
    { questions := shuffled
      currentQuestionIndex := 0
      completeTriggered := false
      markedStarted := true
      db := { db with question_orders := db.question_orders ++ orders } }

/-! ## Submission engine as an event system (guard `isSubmitting`) -/

/-- Live session state between events. `pending` holds the row of a
submission whose storage write is in flight (between the synchronous
guard section of `handleSubmitAnswer` and the resolution of its awaited
insert); `store` holds the durable `submissions` rows of the assignment. -/
structure Engine where
  assignmentId : String
  questions : List Question
  idx : Nat
  userCode : String
  isSubmitting : Bool
  pending : Option Submission
  store : List Submission
  completed : Bool
deriving DecidableEq, Repr

/-- Events of the submission loop: `invoke` is an entry into
`handleSubmitAnswer` (a manual press or the timer-expiry path — both
converge on the same handler), carrying the execution-service outcome and
the elapsed seconds; `resolve` is the completion of the awaited insert,
which clears the guard and advances. -/
inductive SubmitEv where
  | invoke : ExecResult → Nat → SubmitEv
  | resolve : SubmitEv
deriving DecidableEq, Repr

/-- One event step. `invoke` mirrors the guard
`if (!currentQuestion || !assignmentId || isSubmitting) return` followed
by `setIsSubmitting(true)` and the verification; after completion the
quiz view is unmounted (no button, no timer), so an `invoke` is a no-op
then. `resolve` appends the pending row to the store, clears the guard
(`setIsSubmitting(false)`), and advances to the next question or triggers
completion, as in lines 391-401. -/
def engineStep (e : Engine) : SubmitEv → Engine
  | .invoke exec t =>
    if e.completed then e
    else
      match e.questions[e.idx]? with
      | none => e
      | some q =>
        if e.isSubmitting then e
        else
          { e with isSubmitting := true
                   pending := some
                     { assignment_id := e.assignmentId, question_id := q.id,
                       user_code := e.userCode,
                       is_correct := decideCorrect q e.userCode exec,
                       time_taken := t } }
  | .resolve =>
    match e.pending with
    | none => e
    | some row =>
      let e1 := { e with store := e.store ++ [row], isSubmitting := false,
                         pending := none }
      if e.idx < e.questions.length - 1 then
        { e1 with idx := e.idx + 1,
                  userCode :=
                    ((e.questions[e.idx + 1]?).map
                      (fun q => q.incorrect_code)).getD e.userCode }
      else
        { e1 with completed := true }

/-- Run a sequence of events. -/
def runEngine (e : Engine) (evs : List SubmitEv) : Engine :=
  evs.foldl engineStep e

/-! ## Leaderboard aggregator (`fetchLeaderboard` of the leaderboard page) -/

/-- One joined row of the leaderboard query: a submission with the user
of its (completed) assignment. -/
structure LBSubmission where
  user_id : String
  is_correct : Bool
  time_taken : Nat
deriving DecidableEq, Repr

/-- Accumulated per-user statistics (`userStats` record entries before
scoring). -/
structure LeaderboardEntry where
  user_id : String
  correct_count : Nat
  total_time : Nat
  total_questions : Nat
deriving DecidableEq, Repr

/-- One `forEach` step over the joined submissions: create the user entry
on first sight (object keys are recalled in first-insertion order), then
bump question count, total time, and correct count. -/
def bumpStats (acc : List LeaderboardEntry) (s : LBSubmission) :
    List LeaderboardEntry :=
  if acc.any (fun e => e.user_id == s.user_id) then
    acc.map (fun e =>
      if e.user_id == s.user_id then
        { e with total_questions := e.total_questions + 1
                 total_time := e.total_time + s.time_taken
                 correct_count :=
                   e.correct_count + (if s.is_correct then 1 else 0) }
      else e)
  else
    acc ++ [{ user_id := s.user_id
              correct_count := if s.is_correct then 1 else 0
              total_time := s.time_taken
              total_questions := 1 }]

/-- Per-user aggregation of the joined submissions. -/
def userStats (subs : List LBSubmission) : List LeaderboardEntry :=
  subs.foldl bumpStats []

/-- Order induced by the sort comparator
`(a, b) => b.correct_count !== a.correct_count ? b.correct_count - a.correct_count : a.total_time - b.total_time`:
`a` may precede `b` exactly when the comparator is nonpositive. -/
def lbLe (a b : LeaderboardEntry) : Prop :=
  if a.correct_count = b.correct_count then a.total_time ≤ b.total_time
  else b.correct_count < a.correct_count

instance : DecidableRel lbLe := fun a b => by
  unfold lbLe; infer_instance

instance : IsTotal LeaderboardEntry lbLe := by
  constructor
  intro a b
  unfold lbLe
  by_cases h : a.correct_count = b.correct_count
  · simp only [if_pos h, if_pos h.symm]
    omega
  · simp only [if_neg h, if_neg (Ne.symm h)]
    omega

instance : IsTrans LeaderboardEntry lbLe := by
  constructor
  intro a b c hab hbc
  unfold lbLe at *
  split at hab <;> split at hbc <;> split <;> omega

/-- JavaScript `Math.round`: round half toward positive infinity,
i.e. the floor of `x + 1/2`. -/
def jsRound (x : ℚ) : ℤ :=
  ⌊x + 1/2⌋

/-- Average seconds per question,
`entry.total_questions > 0 ? entry.total_time / entry.total_questions : 999`. -/
def avgTime (e : LeaderboardEntry) : ℚ :=
  if e.total_questions > 0 then (e.total_time : ℚ) / (e.total_questions : ℚ)
  else 999

/-- Position bonus by rank: 50, 30, 10, then 0. -/
def positionScore (idx : Nat) : ℤ :=
  if idx = 0 then 50 else if idx = 1 then 30 else if idx = 2 then 10 else 0

/-- Speed bonus `Math.max(0, Math.round(20 - avgTime / 6))`. -/
def speedBonus (e : LeaderboardEntry) : ℤ :=
  max 0 (jsRound (20 - avgTime e / 6))

/-- Total score of the entry at rank `idx`. -/
def entryScore (idx : Nat) (e : LeaderboardEntry) : ℤ :=
  positionScore idx + (e.correct_count : ℤ) * 5 + speedBonus e

/-- Embedding of the aggregation, sorting, and scoring part of
`fetchLeaderboard`: group the joined submissions per user, sort by the
comparator, and attach each rank score. -/
def fetchLeaderboard (subs : List LBSubmission) :
    List (LeaderboardEntry × ℤ) :=
  let sorted := List.insertionSort lbLe (userStats subs)
  sorted.enum.map (fun p => (p.2, entryScore p.1 p.2))


/-- Inductive invariant of the submission engine: question identifiers
are distinct, the guard flag mirrors an in-flight row, and the store
always holds exactly the submissions of the first `k` questions of the
sequence, with any in-flight row being the one of question `k`. -/
def EngineInv (e : Engine) : Prop :=
  (e.questions.map Question.id).Nodup ∧
  e.isSubmitting = e.pending.isSome ∧
  ∃ k, k ≤ e.questions.length ∧
    e.store.map Submission.question_id = (e.questions.take k).map Question.id ∧
    (match e.pending with
     | some row =>
       e.idx = k ∧ e.completed = false ∧
       ∃ hk : k < e.questions.length,
         (e.questions.get ⟨k, hk⟩).id = row.question_id
     | none => e.completed = true ∨ e.idx = k)

/-- All coin streams of a given length, each equally likely under a fair
random source. -/
def allStreams : Nat → List (List Bool)
  | 0 => [[]]
  | n + 1 =>
    (allStreams n).map (fun l => true :: l) ++
    (allStreams n).map (fun l => false :: l)

/-- Number of coin streams of length `n` on which the random-comparator
shuffle maps `l` to exactly `perm`. Uniform randomness of the shuffle
(every ordering equally likely, as the spec claims) would require this
count to be the same for all permutations `perm` of `l`. -/
def shuffleCount (n : Nat) (l perm : List Question) : Nat :=
  (allStreams n).countP (fun cs => decide (shuffleJS cs l = perm))

/-- Speed bonus as worded by the spec and the claim:
`max(0, round(20 − (totalSeconds/totalQuestions)/6))`, with an entry of
zero answered questions receiving zero speed bonus. -/
def specSpeedBonus (e : LeaderboardEntry) : ℤ :=
  if e.total_questions = 0 then 0
  else max 0 (jsRound (20 - ((e.total_time : ℚ) / (e.total_questions : ℚ)) / 6))

/-- Score as worded by the claim:
`positionBonus + 5·correctCount + speedBonus`. -/
def specScore (rank : Nat) (e : LeaderboardEntry) : ℤ :=
  positionScore rank + 5 * (e.correct_count : ℤ) + specSpeedBonus e

/-- Ranking order as worded by the claim: correct count descending, then
total elapsed seconds ascending. -/
def lbSpecOrder (a b : LeaderboardEntry) : Prop :=
  b.correct_count < a.correct_count ∨
  (a.correct_count = b.correct_count ∧ a.total_time ≤ b.total_time)

/-! ## Claim theorems -/

/-- Right-trim equality is preserved by the full JavaScript trim, since
the latter only strips further characters on the left. -/
theorem jsTrim_eq_of_trimRight_eq {a b : List Char}
    (h : trimRightJS a = trimRightJS b) : jsTrim a = jsTrim b := by
  unfold jsTrim
  rw [h]

/-- C1: the claim asks the timer-expiry path to persist exactly one
Submission built from the last-known buffer with the full per-question
limit as elapsed time. In the code the expiry path is
`handleAutoSubmit`, memoized by `useCallback` with an empty dependency
array, so it forever invokes the `handleSubmitAnswer` closure of the
first render, whose snapshot has an empty question list; its guard
(`!currentQuestion`) therefore returns early and nothing is ever
requested from or written to storage on the expiry path, for every
execution outcome and storage behaviour. -/
theorem c1_timer_expiry_persists_nothing :
    ∀ (aid : Option String) (exec : ExecResult) (timeTaken : Nat)
      (insertOk : Bool),
      (timerTick 1).2 = true ∧
      handleAutoSubmit aid exec timeTaken insertOk
        = noopOutcome (initialQuizPageState aid) := by
  intro aid exec timeTaken insertOk
  constructor
  · rfl
  · rfl

/-- C5: with a non-empty expected output and a well-formed execution
response carrying a stdout whose right-trimmed text equals the
right-trimmed expected output, the verification marks the answer
correct, for every learner buffer (the buffer is not consulted on this
path). -/
theorem c5_output_equality_implies_correct
    (q : Question) (userCode : String) (r : RunOutput) (out : String)
    (hexp : q.expected_output ≠ "")
    (hstdout : r.stdout = some out)
    (heq : trimRightJS out.data = trimRightJS q.expected_output.data) :
    decideCorrect q userCode (.ok (some r)) = true := by
  obtain ⟨st, serr⟩ := r
  simp only at hstdout
  subst hstdout
  unfold decideCorrect
  rw [if_pos hexp]
  simp only [decide_eq_true_eq]
  exact jsTrim_eq_of_trimRight_eq heq

/-- C5 witness. -/
theorem c5_witness :
    let q : Question :=
      { id := "q", quiz_id := "z", title := "t", incorrect_code := "a",
        correct_code := "print(42)", expected_output := "42",
        language := "python", order_index := 0 }
    decideCorrect q "print(41+1)" (.ok (some ⟨some "42\n", some ""⟩)) = true :=
  c5_output_equality_implies_correct _ "print(41+1)" _ "42\n"
    (by decide) rfl (by decide)

/-- C10: with a non-empty expected output and a well-formed execution
response whose trimmed stdout differs from the trimmed expected output,
the persisted Submission row carries `is_correct = false`; the
normalized-code fallback is never consulted, whatever the buffer
contains. -/
theorem c10_output_mismatch_persists_incorrect
    (snap : QuizPageState) (aid : String) (q : Question) (r : RunOutput)
    (out : String) (t : Nat)
    (hq : currentQuestion snap = some q)
    (ha : snap.assignmentId = some aid)
    (hs : snap.isSubmitting = false)
    (hexp : q.expected_output ≠ "")
    (hstdout : r.stdout = some out)
    (hne : jsTrim out.data ≠ jsTrim q.expected_output.data) :
    decideCorrect q snap.userCode (.ok (some r)) = false ∧
    (handleSubmitAnswer snap (.ok (some r)) t true).inserted
      = some { assignment_id := aid, question_id := q.id,
               user_code := snap.userCode, is_correct := false,
               time_taken := t } := by
  obtain ⟨st, serr⟩ := r
  simp only at hstdout
  subst hstdout
  have hdc : decideCorrect q snap.userCode (.ok (some ⟨some out, serr⟩)) = false := by
    unfold decideCorrect
    rw [if_pos hexp]
    simp only [decide_eq_false_iff_not]
    exact hne
  refine ⟨hdc, ?_⟩
  simp only [handleSubmitAnswer, hq, ha, hs, Bool.false_eq_true, if_false, hdc]
  split <;> simp

/-- C10 witness. -/
theorem c10_witness :
    let q : Question :=
      { id := "q", quiz_id := "z", title := "t", incorrect_code := "a",
        correct_code := "print(42)", expected_output := "42",
        language := "python", order_index := 0 }
    let snap : QuizPageState :=
      { assignmentId := some "a1", loading := false, quiz := none,
        questions := [q], currentQuestionIndex := 0,
        userCode := "PRINT(42)  // same after normalization",
        isSubmitting := false, quizCompleted := false, timeLeft := 9 }
    decideCorrect q snap.userCode (.ok (some ⟨some "41", none⟩)) = false ∧
    (handleSubmitAnswer snap (.ok (some ⟨some "41", none⟩)) 7 true).inserted
      = some { assignment_id := "a1", question_id := "q",
               user_code := snap.userCode, is_correct := false,
               time_taken := 7 } := by
  refine c10_output_mismatch_persists_incorrect _ "a1" _ _ "41" 7
    rfl rfl rfl (by decide) rfl (by decide)


/-- C6 counterexample: a parseable execution response with no run output
(`data.run` absent) does not trigger the normalized-code fallback. The
buffer here normalizes equal to the canonical corrected code, so the
claimed fallback would judge it correct, yet the verification yields
`false`. -/
theorem c6_counterexample :
    decideCorrect
      { id := "q", quiz_id := "z", title := "t", incorrect_code := "a",
        correct_code := "int x ;", expected_output := "42",
        language := "c", order_index := 0 }
      "int   X ;" (.ok none) = false ∧
    normalizeCode "int   X ;" = normalizeCode "int x ;" := by
  decide

/-- C6 amended: an execution attempt that throws (network error or
unparseable body) falls back to normalized code equality and is never
fatal, but a parseable response with a missing `run` object or a missing
`stdout` field yields `is_correct = false` without consulting the
fallback. -/
theorem c6_softfail_fallback_amended
    (q : Question) (userCode : String) (r : RunOutput)
    (hexp : q.expected_output ≠ "") (hstdout : r.stdout = none) :
    decideCorrect q userCode .threw
      = decide (normalizeCode userCode = normalizeCode q.correct_code) ∧
    decideCorrect q userCode (.ok none) = false ∧
    decideCorrect q userCode (.ok (some r)) = false := by
  obtain ⟨st, serr⟩ := r
  simp only at hstdout
  subst hstdout
  refine ⟨?_, ?_, ?_⟩ <;>
    (unfold decideCorrect; rw [if_pos hexp])

/-- C6 amended witness. -/
theorem c6_amended_witness :
    let q : Question :=
      { id := "q", quiz_id := "z", title := "t", incorrect_code := "a",
        correct_code := "int x ;", expected_output := "42",
        language := "c", order_index := 0 }
    decideCorrect q "int   X ;" .threw
      = decide (normalizeCode "int   X ;" = normalizeCode q.correct_code) ∧
    decideCorrect q "int   X ;" (.ok none) = false ∧
    decideCorrect q "int   X ;" (.ok (some ⟨none, some "boom"⟩)) = false :=
  c6_softfail_fallback_amended _ "int   X ;" ⟨none, some "boom"⟩
    (by decide) rfl

/-- C7 counterexample: in a live two-question session, a failed
Submission insert leaves no durable row, surfaces nothing, and the
session still advances to the next question — the claim asks the
opposite (surface the failure and block advancement). -/
theorem c7_counterexample :
    (handleSubmitAnswer
      { assignmentId := some "a1", loading := false, quiz := none,
        questions :=
          [{ id := "q1", quiz_id := "z", title := "t1",
             incorrect_code := "a", correct_code := "b",
             expected_output := "", language := "c", order_index := 0 },
           { id := "q2", quiz_id := "z", title := "t2",
             incorrect_code := "c", correct_code := "d",
             expected_output := "", language := "c", order_index := 1 }],
        currentQuestionIndex := 0, userCode := "x",
        isSubmitting := false, quizCompleted := false, timeLeft := 3 }
      .threw 5 false).inserted = none ∧
    (handleSubmitAnswer
      { assignmentId := some "a1", loading := false, quiz := none,
        questions :=
          [{ id := "q1", quiz_id := "z", title := "t1",
             incorrect_code := "a", correct_code := "b",
             expected_output := "", language := "c", order_index := 0 },
           { id := "q2", quiz_id := "z", title := "t2",
             incorrect_code := "c", correct_code := "d",
             expected_output := "", language := "c", order_index := 1 }],
        currentQuestionIndex := 0, userCode := "x",
        isSubmitting := false, quizCompleted := false, timeLeft := 3 }
      .threw 5 false).advanced = true ∧
    (handleSubmitAnswer
      { assignmentId := some "a1", loading := false, quiz := none,
        questions :=
          [{ id := "q1", quiz_id := "z", title := "t1",
             incorrect_code := "a", correct_code := "b",
             expected_output := "", language := "c", order_index := 0 },
           { id := "q2", quiz_id := "z", title := "t2",
             incorrect_code := "c", correct_code := "d",
             expected_output := "", language := "c", order_index := 1 }],
        currentQuestionIndex := 0, userCode := "x",
        isSubmitting := false, quizCompleted := false, timeLeft := 3 }
      .threw 5 false).surfacedError = false := by
  decide

/-- C7 amended: the handler never inspects the insert result — a storage
write failure is neither surfaced nor does it change the control flow:
the session advances (or completes) exactly as on success, only the
durable row is missing. -/
theorem c7_insert_failure_ignored
    (snap : QuizPageState) (exec : ExecResult) (t : Nat) :
    (handleSubmitAnswer snap exec t false).surfacedError = false ∧
    (handleSubmitAnswer snap exec t false).inserted = none ∧
    (handleSubmitAnswer snap exec t false).advanced
      = (handleSubmitAnswer snap exec t true).advanced ∧
    (handleSubmitAnswer snap exec t false).completeTriggered
      = (handleSubmitAnswer snap exec t true).completeTriggered ∧
    (handleSubmitAnswer snap exec t false).newIndex
      = (handleSubmitAnswer snap exec t true).newIndex := by
  unfold handleSubmitAnswer
  cases hq : currentQuestion snap <;> cases ha : snap.assignmentId <;>
    simp only [noopOutcome] <;> try simp
  split
  · simp [noopOutcome]
  · split <;> simp


/-- C3: when `question_orders` rows already exist for an assignment, the
loader takes the existing-order branch: the persisted rows are used
sorted by rank, nothing is written (the stored state is returned
unchanged), and a second load of the same assignment — with any random
source — yields the identical question sequence. -/
theorem c3_order_stability (db : Db) (aid quizId : String)
    (coins coins2 : List Bool)
    (h : 0 < (orderRowsFor db aid).length) :
    List.Sorted orderRowLe (orderRowsFor db aid) ∧
    (fetchQuizData db aid quizId coins).db = db ∧
    (fetchQuizData db aid quizId coins).questions
      = orderedQuestionsOf db aid ∧
    (fetchQuizData ((fetchQuizData db aid quizId coins).db) aid quizId
        coins2).questions
      = (fetchQuizData db aid quizId coins).questions := by
  have hdb : (fetchQuizData db aid quizId coins).db = db := by
    unfold fetchQuizData
    dsimp only
    split
    · rfl
    · omega
  have hq : ∀ cs, (fetchQuizData db aid quizId cs).questions
      = orderedQuestionsOf db aid := by
    intro cs
    unfold fetchQuizData
    dsimp only
    split
    · rfl
    · omega
  refine ⟨?_, hdb, hq coins, ?_⟩
  · unfold orderRowsFor
    exact List.sorted_insertionSort orderRowLe _
  · rw [hdb, hq coins, hq coins2]

/-- C3 witness. -/
theorem c3_witness :
    List.Sorted orderRowLe (orderRowsFor
      { questions :=
          [{ id := "q1", quiz_id := "z1", title := "t1",
             incorrect_code := "a", correct_code := "b",
             expected_output := "", language := "c", order_index := 0 }],
        question_orders :=
          [{ assignment_id := "a1", question_id := "q1", order_index := 0 }],
        submissions := [] } "a1") ∧
    (fetchQuizData
      { questions :=
          [{ id := "q1", quiz_id := "z1", title := "t1",
             incorrect_code := "a", correct_code := "b",
             expected_output := "", language := "c", order_index := 0 }],
        question_orders :=
          [{ assignment_id := "a1", question_id := "q1", order_index := 0 }],
        submissions := [] } "a1" "z1" [true]).db
      = { questions :=
            [{ id := "q1", quiz_id := "z1", title := "t1",
               incorrect_code := "a", correct_code := "b",
               expected_output := "", language := "c", order_index := 0 }],
          question_orders :=
            [{ assignment_id := "a1", question_id := "q1", order_index := 0 }],
          submissions := [] } ∧
    (fetchQuizData
      { questions :=
          [{ id := "q1", quiz_id := "z1", title := "t1",
             incorrect_code := "a", correct_code := "b",
             expected_output := "", language := "c", order_index := 0 }],
        question_orders :=
          [{ assignment_id := "a1", question_id := "q1", order_index := 0 }],
        submissions := [] } "a1" "z1" [true]).questions
      = orderedQuestionsOf
          { questions :=
              [{ id := "q1", quiz_id := "z1", title := "t1",
                 incorrect_code := "a", correct_code := "b",
                 expected_output := "", language := "c", order_index := 0 }],
            question_orders :=
              [{ assignment_id := "a1", question_id := "q1", order_index := 0 }],
            submissions := [] } "a1" ∧
    (fetchQuizData
      (fetchQuizData
        { questions :=
            [{ id := "q1", quiz_id := "z1", title := "t1",
               incorrect_code := "a", correct_code := "b",
               expected_output := "", language := "c", order_index := 0 }],
          question_orders :=
            [{ assignment_id := "a1", question_id := "q1", order_index := 0 }],
          submissions := [] } "a1" "z1" [true]).db "a1" "z1" [false]).questions
      = (fetchQuizData
          { questions :=
              [{ id := "q1", quiz_id := "z1", title := "t1",
                 incorrect_code := "a", correct_code := "b",
                 expected_output := "", language := "c", order_index := 0 }],
            question_orders :=
              [{ assignment_id := "a1", question_id := "q1", order_index := 0 }],
            submissions := [] } "a1" "z1" [true]).questions :=
  c3_order_stability _ "a1" "z1" [true] [false] (by decide)


/-- Characterization of `List.findIdx?`: if the predicate is false
strictly below position `K` and true at `K` (when `K` is in range), the
search started at `s` lands exactly on `K + s`, and fails when `K` is
the length. -/
theorem findIdx?_first {α : Type} (p : α → Bool) :
    ∀ (l : List α) (K s : Nat),
      (∀ (i : Nat), i < K → ∀ (hl : i < l.length), p (l.get ⟨i, hl⟩) = false) →
      (∀ hl : K < l.length, p (l.get ⟨K, hl⟩) = true) →
      l.findIdx? p s = if K < l.length then some (K + s) else none := by
  intro l
  induction l with
  | nil =>
    intro K s h1 h2
    simp
  | cons a t ih =>
    intro K s h1 h2
    rw [List.findIdx?_cons]
    cases K with
    | zero =>
      have hp : p a = true := h2 (by simp)
      rw [hp]
      simp
    | succ K =>
      have hp : p a = false := h1 0 (Nat.succ_pos K) (by simp)
      rw [hp]
      simp only [Bool.false_eq_true, if_false]
      have h1t : ∀ (i : Nat), i < K → ∀ (hl : i < t.length),
          p (t.get ⟨i, hl⟩) = false := by
        intro i hi hl
        have hh := h1 (i + 1) (Nat.succ_lt_succ hi) (Nat.succ_lt_succ hl)
        rwa [List.get_cons_succ] at hh
      have h2t : ∀ hl : K < t.length, p (t.get ⟨K, hl⟩) = true := by
        intro hl
        have hh := h2 (Nat.succ_lt_succ hl)
        rwa [List.get_cons_succ] at hh
      rw [ih K (s + 1) h1t h2t]
      by_cases hK : K < t.length
      · rw [if_pos hK, if_pos (by simpa using Nat.succ_lt_succ hK)]
        congr 1
        omega
      · rw [if_neg hK, if_neg (by simp; omega)]

/-- An element of a duplicate-free list never occurs before its own
position. -/
theorem getElem_not_mem_take {α : Type} {L : List α} {K : Nat}
    (hnd : L.Nodup) (hK : K < L.length) : L[K] ∉ L.take K := by
  intro hmem
  have hsplit := List.take_append_drop K L
  rw [← hsplit, List.nodup_append] at hnd
  obtain ⟨-, -, hdisj⟩ := hnd
  have hdrop : L[K] ∈ L.drop K := by
    have h0 : 0 < (L.drop K).length := by
      simp [List.length_drop]
      omega
    have hh := List.getElem_mem (l := L.drop K) (n := 0) h0
    rw [List.getElem_drop] at hh
    simpa using hh
  exact hdisj hmem hdrop

/-- The resume search of the loader: with distinct question identifiers
and an answered set that is exactly the identifiers of the first `K`
questions, `findIndex` over the ordered sequence returns `K` (or `-1`
when every question is answered). -/
theorem jsFindIndex_resume (qs : List Question) (ans : List String)
    (K : Nat)
    (hnodup : (qs.map Question.id).Nodup) (hK : K ≤ qs.length)
    (hans : ∀ x, x ∈ ans ↔ x ∈ (qs.take K).map Question.id) :
    jsFindIndex (fun q => !(ans.contains q.id)) qs
      = if K < qs.length then (K : Int) else -1 := by
  have h1 : ∀ (i : Nat), i < K → ∀ (hl : i < qs.length),
      (!(ans.contains (qs.get ⟨i, hl⟩).id)) = false := by
    intro i hi hl
    have hmem : (qs.get ⟨i, hl⟩).id ∈ (qs.take K).map Question.id := by
      apply List.mem_map_of_mem
      have hlen : i < (qs.take K).length := by
        simp [List.length_take]
        omega
      have hget : (qs.take K).get ⟨i, hlen⟩ = qs.get ⟨i, hl⟩ := by
        simp [List.getElem_take]
      rw [← hget]
      exact List.get_mem _ _ _
    have hin : (qs.get ⟨i, hl⟩).id ∈ ans := (hans _).mpr hmem
    have hcont : ans.contains (qs.get ⟨i, hl⟩).id = true :=
      List.elem_iff.mpr hin
    rw [hcont]
    rfl
  have h2 : ∀ hl : K < qs.length,
      (!(ans.contains (qs.get ⟨K, hl⟩).id)) = true := by
    intro hl
    have hnot : (qs.get ⟨K, hl⟩).id ∉ ans := by
      intro hmem
      have hin := (hans _).mp hmem
      rw [List.map_take] at hin
      have hKL : K < (qs.map Question.id).length := by
        simpa using hl
      have hgetL : (qs.get ⟨K, hl⟩).id = (qs.map Question.id)[K] := by
        simp
      rw [hgetL] at hin
      exact getElem_not_mem_take hnodup hKL hin
    cases hcont : ans.contains (qs.get ⟨K, hl⟩).id
    · rfl
    · exact absurd (List.elem_iff.mp hcont) hnot
  unfold jsFindIndex
  rw [findIdx?_first _ qs K 0 h1 h2]
  by_cases hKlt : K < qs.length
  · rw [if_pos hKlt, if_pos hKlt]
    simp
  · rw [if_neg hKlt, if_neg hKlt]

/-- C4: with a persisted order whose questions carry `N` distinct
identifiers and submissions covering exactly the first `K` of them, the
loader resumes at index `K`; completion fires at load time exactly when
`K = N`. -/
theorem c4_resume_index (db : Db) (aid quizId : String) (coins : List Bool)
    (K : Nat)
    (hne : 0 < (orderRowsFor db aid).length)
    (hnodup : ((orderedQuestionsOf db aid).map Question.id).Nodup)
    (hK : K ≤ (orderedQuestionsOf db aid).length)
    (hans : ∀ x, x ∈ answeredIds db aid ↔
        x ∈ ((orderedQuestionsOf db aid).take K).map Question.id) :
    (fetchQuizData db aid quizId coins).currentQuestionIndex = K ∧
    ((fetchQuizData db aid quizId coins).completeTriggered = true ↔
      K = (orderedQuestionsOf db aid).length) := by
  have hjs := jsFindIndex_resume (orderedQuestionsOf db aid)
    (answeredIds db aid) K hnodup hK hans
  unfold fetchQuizData
  dsimp only
  split
  · rw [hjs]
    constructor
    · by_cases hKlt : K < (orderedQuestionsOf db aid).length
      · have hne1 : ((K : Int)) ≠ -1 := by omega
        rw [if_pos hKlt, if_neg hne1]
        simp
      · have hKeq : K = (orderedQuestionsOf db aid).length := by omega
        rw [if_neg hKlt, if_pos rfl]
        dsimp only
        omega
    · rw [decide_eq_true_eq]
      by_cases hKlt : K < (orderedQuestionsOf db aid).length
      · rw [if_pos hKlt]
        constructor
        · intro hd
          rcases hd with hd | hd <;> omega
        · intro hd
          omega
      · rw [if_neg hKlt]
        constructor
        · intro _
          omega
        · intro _
          left
          rfl
  · omega

/-- C4 witness: two ordered questions, the first already answered, give
resume index 1 with no completion at load time. -/
theorem c4_witness :
    (fetchQuizData
      { questions :=
          [{ id := "q1", quiz_id := "z1", title := "t1",
             incorrect_code := "a", correct_code := "b",
             expected_output := "", language := "c", order_index := 0 },
           { id := "q2", quiz_id := "z1", title := "t2",
             incorrect_code := "c", correct_code := "d",
             expected_output := "", language := "c", order_index := 1 }],
        question_orders :=
          [{ assignment_id := "a1", question_id := "q1", order_index := 0 },
           { assignment_id := "a1", question_id := "q2", order_index := 1 }],
        submissions :=
          [{ assignment_id := "a1", question_id := "q1",
             user_code := "a", is_correct := true, time_taken := 4 }] }
      "a1" "z1" []).currentQuestionIndex = 1 ∧
    ((fetchQuizData
      { questions :=
          [{ id := "q1", quiz_id := "z1", title := "t1",
             incorrect_code := "a", correct_code := "b",
             expected_output := "", language := "c", order_index := 0 },
           { id := "q2", quiz_id := "z1", title := "t2",
             incorrect_code := "c", correct_code := "d",
             expected_output := "", language := "c", order_index := 1 }],
        question_orders :=
          [{ assignment_id := "a1", question_id := "q1", order_index := 0 },
           { assignment_id := "a1", question_id := "q2", order_index := 1 }],
        submissions :=
          [{ assignment_id := "a1", question_id := "q1",
             user_code := "a", is_correct := true, time_taken := 4 }] }
      "a1" "z1" []).completeTriggered = true ↔
      1 = (orderedQuestionsOf
        { questions :=
            [{ id := "q1", quiz_id := "z1", title := "t1",
               incorrect_code := "a", correct_code := "b",
               expected_output := "", language := "c", order_index := 0 },
             { id := "q2", quiz_id := "z1", title := "t2",
               incorrect_code := "c", correct_code := "d",
               expected_output := "", language := "c", order_index := 1 }],
          question_orders :=
            [{ assignment_id := "a1", question_id := "q1", order_index := 0 },
             { assignment_id := "a1", question_id := "q2", order_index := 1 }],
          submissions :=
            [{ assignment_id := "a1", question_id := "q1",
               user_code := "a", is_correct := true, time_taken := 4 }] }
        "a1").length) := by
  refine c4_resume_index _ "a1" "z1" [] 1 (by decide) (by decide) (by decide) ?_
  intro x
  have hl : answeredIds
      { questions :=
          [{ id := "q1", quiz_id := "z1", title := "t1",
             incorrect_code := "a", correct_code := "b",
             expected_output := "", language := "c", order_index := 0 },
           { id := "q2", quiz_id := "z1", title := "t2",
             incorrect_code := "c", correct_code := "d",
             expected_output := "", language := "c", order_index := 1 }],
        question_orders :=
          [{ assignment_id := "a1", question_id := "q1", order_index := 0 },
           { assignment_id := "a1", question_id := "q2", order_index := 1 }],
        submissions :=
          [{ assignment_id := "a1", question_id := "q1",
             user_code := "a", is_correct := true, time_taken := 4 }] }
      "a1" = ["q1"] := by decide
  have hr : ((orderedQuestionsOf
      { questions :=
          [{ id := "q1", quiz_id := "z1", title := "t1",
             incorrect_code := "a", correct_code := "b",
             expected_output := "", language := "c", order_index := 0 },
           { id := "q2", quiz_id := "z1", title := "t2",
             incorrect_code := "c", correct_code := "d",
             expected_output := "", language := "c", order_index := 1 }],
        question_orders :=
          [{ assignment_id := "a1", question_id := "q1", order_index := 0 },
           { assignment_id := "a1", question_id := "q2", order_index := 1 }],
        submissions :=
          [{ assignment_id := "a1", question_id := "q1",
             user_code := "a", is_correct := true, time_taken := 4 }] }
      "a1").take 1).map Question.id = ["q1"] := by decide
  rw [hl, hr]


/-- One engine event preserves the engine invariant. -/
theorem engineStep_inv (e : Engine) (ev : SubmitEv) (h : EngineInv e) :
    EngineInv (engineStep e ev) := by
  obtain ⟨hnd, hflag, k, hk, hstore, hrest⟩ := h
  cases ev with
  | invoke exec t =>
    unfold engineStep
    dsimp only
    by_cases hc : e.completed = true
    · rw [if_pos hc]
      exact ⟨hnd, hflag, k, hk, hstore, hrest⟩
    · rw [if_neg hc]
      cases hq : e.questions[e.idx]? with
      | none => exact ⟨hnd, hflag, k, hk, hstore, hrest⟩
      | some q =>
        dsimp only
        by_cases hsub : e.isSubmitting = true
        · rw [if_pos hsub]
          exact ⟨hnd, hflag, k, hk, hstore, hrest⟩
        · rw [if_neg hsub]
          have hpend : e.pending = none := by
            cases hp : e.pending with
            | none => rfl
            | some row =>
              rw [hp] at hflag
              exact absurd hflag hsub
          rw [hpend] at hrest
          have hidx : e.idx = k := by
            rcases hrest with hcomp | hidx
            · exact absurd hcomp hc
            · exact hidx
          refine ⟨hnd, rfl, k, hk, hstore, ?_⟩
          refine ⟨hidx, ?_, ?_⟩
          · simpa using hc
          · rw [hidx] at hq
            obtain ⟨hk2, hget⟩ := List.getElem?_eq_some.mp hq
            exact ⟨hk2, by rw [show e.questions.get ⟨k, hk2⟩ = e.questions[k] from rfl, hget]⟩
  | resolve =>
    unfold engineStep
    dsimp only
    cases hp : e.pending with
    | none => exact ⟨hnd, hflag, k, hk, hstore, hrest⟩
    | some row =>
      dsimp only
      rw [hp] at hrest
      obtain ⟨hidx, hcomp, hk2, hget⟩ := hrest
      have hstore2 : ((e.store ++ [row]).map Submission.question_id)
          = ((e.questions.take (k + 1)).map Question.id) := by
        have hksome : e.questions[k]? = some (e.questions.get ⟨k, hk2⟩) :=
          List.getElem?_eq_some.mpr ⟨hk2, rfl⟩
        rw [List.map_append, hstore, List.take_succ, hksome]
        simp only [Option.toList_some, List.map_append, List.map_cons,
          List.map_nil, hget]
      by_cases hadv : e.idx < e.questions.length - 1
      · rw [if_pos hadv]
        refine ⟨hnd, rfl, k + 1, by dsimp only; omega, hstore2, ?_⟩
        right
        dsimp only
        omega
      · rw [if_neg hadv]
        exact ⟨hnd, rfl, k + 1, by dsimp only; omega, hstore2, Or.inl rfl⟩

/-- The engine invariant holds after any event sequence. -/
theorem runEngine_inv :
    ∀ (evs : List SubmitEv) (e : Engine),
      EngineInv e → EngineInv (runEngine e evs)
  | [], _, h => h
  | ev :: evs, e, h => runEngine_inv evs _ (engineStep_inv e ev h)

/-- C2: starting from a loaded session (distinct question identifiers,
no submission in flight, durable rows covering exactly the questions
before the resume index), any interleaving of submit entries — manual or
timer-forced, including a second entry racing while one is in flight —
and insert resolutions leaves at most one persisted Submission per
question of the assignment: the stored question identifiers stay
duplicate-free. -/
theorem c2_at_most_one_submission_per_question (e0 : Engine)
    (evs : List SubmitEv)
    (hnodup : (e0.questions.map Question.id).Nodup)
    (hsub : e0.isSubmitting = false) (hpend : e0.pending = none)
    (hidx : e0.idx ≤ e0.questions.length)
    (hstore : e0.store.map Submission.question_id
      = (e0.questions.take e0.idx).map Question.id) :
    ((runEngine e0 evs).store.map Submission.question_id).Nodup := by
  have h0 : EngineInv e0 := by
    refine ⟨hnodup, ?_, e0.idx, hidx, hstore, ?_⟩
    · rw [hsub, hpend]
      rfl
    · rw [hpend]
      exact Or.inr rfl
  have hinv := runEngine_inv evs e0 h0
  obtain ⟨hnd, -, k, hk, hstoreEq, -⟩ := hinv
  rw [hstoreEq, List.map_take]
  exact List.Nodup.sublist ((List.take_prefix k _).sublist) hnd

/-- C2 witness: a duplicate `invoke` while a submission is in flight and
a stray `resolve` are both suppressed; the store ends with one row per
question. -/
theorem c2_witness :
    ((runEngine
      { assignmentId := "a1",
        questions :=
          [{ id := "q1", quiz_id := "z1", title := "t1",
             incorrect_code := "a", correct_code := "b",
             expected_output := "", language := "c", order_index := 0 },
           { id := "q2", quiz_id := "z1", title := "t2",
             incorrect_code := "c", correct_code := "d",
             expected_output := "", language := "c", order_index := 1 }],
        idx := 0, userCode := "u", isSubmitting := false, pending := none,
        store := [], completed := false }
      [SubmitEv.invoke .threw 3, SubmitEv.invoke .threw 9,
       SubmitEv.resolve, SubmitEv.resolve,
       SubmitEv.invoke .threw 5, SubmitEv.resolve,
       SubmitEv.invoke .threw 7, SubmitEv.resolve]).store.map
        Submission.question_id).Nodup :=
  c2_at_most_one_submission_per_question _ _ (by decide) rfl rfl
    (by decide) rfl


/-- The speed bonus computed by the code (999-sentinel average for an
empty entry) agrees with the formula worded by the claim (zero speed
bonus for an entry with zero answered questions). -/
theorem speedBonus_eq_spec (e : LeaderboardEntry) :
    speedBonus e = specSpeedBonus e := by
  unfold speedBonus specSpeedBonus
  by_cases h : e.total_questions = 0
  · have ha : avgTime e = 999 := by
      unfold avgTime
      rw [if_neg (by omega)]
    rw [ha, if_pos h]
    have hr : jsRound ((20 : ℚ) - 999 / 6) = -146 := by
      unfold jsRound
      norm_num [Int.floor_eq_iff]
    rw [hr]
    rw [max_eq_left (by omega)]
  · have ha : avgTime e = (e.total_time : ℚ) / (e.total_questions : ℚ) := by
      unfold avgTime
      rw [if_pos (by omega)]
    rw [ha, if_neg h]

/-- The comparator order implies the order worded by the claim. -/
theorem lbLe_implies_spec {a b : LeaderboardEntry} (h : lbLe a b) :
    lbSpecOrder a b := by
  unfold lbLe at h
  unfold lbSpecOrder
  by_cases hc : a.correct_count = b.correct_count
  · rw [if_pos hc] at h
    exact Or.inr ⟨hc, h⟩
  · rw [if_neg hc] at h
    exact Or.inl h

/-- C8: the aggregator output is sorted by correct count descending with
total elapsed seconds ascending as tie break, and every entry receives
`positionBonus + 5·correctCount + max(0, round(20 − (totalSeconds/totalQuestions)/6))`,
with a zero-question entry receiving zero speed bonus. -/
theorem c8_leaderboard_sort_and_score (subs : List LBSubmission) :
    List.Pairwise lbSpecOrder ((fetchLeaderboard subs).map Prod.fst) ∧
    fetchLeaderboard subs
      = (List.insertionSort lbLe (userStats subs)).enum.map
          (fun p => (p.2, specScore p.1 p.2)) := by
  constructor
  · have h1 : (fetchLeaderboard subs).map Prod.fst
        = List.insertionSort lbLe (userStats subs) := by
      unfold fetchLeaderboard
      dsimp only
      rw [List.map_map]
      have h2 : (Prod.fst ∘ fun p : Nat × LeaderboardEntry =>
          (p.2, entryScore p.1 p.2)) = Prod.snd := rfl
      rw [h2, List.enum_map_snd]
    rw [h1]
    exact (List.sorted_insertionSort lbLe (userStats subs)).imp
      (fun hab => lbLe_implies_spec hab)
  · unfold fetchLeaderboard
    dsimp only
    apply List.map_congr_left
    intro p _
    have hsc : entryScore p.1 p.2 = specScore p.1 p.2 := by
      unfold entryScore specScore
      rw [speedBonus_eq_spec]
      ring
    rw [hsc]

/-- Inserting through the coin-driven comparator permutes the input. -/
theorem coinOrderedInsert_perm {α : Type} :
    ∀ (coins : List Bool) (a : α) (l : List α),
      (coinOrderedInsert coins a l).1.Perm (a :: l) := by
  intro coins a l
  induction l generalizing coins with
  | nil => simp [coinOrderedInsert]
  | cons b t ih =>
    unfold coinOrderedInsert
    by_cases hc : coins.headD true = true
    · rw [if_pos hc]
    · rw [if_neg hc]
      dsimp only
      exact ((ih coins.tail).cons b).trans (List.Perm.swap a b t)

/-- The coin-driven sort permutes the input. -/
theorem coinInsertionSort_perm {α : Type} :
    ∀ (coins : List Bool) (l : List α),
      (coinInsertionSort coins l).1.Perm l := by
  intro coins l
  induction l generalizing coins with
  | nil => simp [coinInsertionSort]
  | cons a t ih =>
    unfold coinInsertionSort
    dsimp only
    exact (coinOrderedInsert_perm _ a _).trans ((ih _).cons a)

/-- C9 counterexample: on three distinct questions the random-comparator
shuffle is not a uniform random permutation — over the eight equally
likely coin streams of length three, the identity ordering arises on two
streams while swapping the first two questions arises on only one, so
not every ordering is equally likely. (Any comparison sort driven by
fair coins shares this defect: `2^n` equally likely streams never split
evenly over the six orderings of three questions.) -/
theorem c9_counterexample :
    shuffleCount 3
      [{ id := "qa", quiz_id := "z1", title := "ta", incorrect_code := "a",
         correct_code := "b", expected_output := "", language := "c",
         order_index := 0 },
       { id := "qb", quiz_id := "z1", title := "tb", incorrect_code := "c",
         correct_code := "d", expected_output := "", language := "c",
         order_index := 1 },
       { id := "qc", quiz_id := "z1", title := "tc", incorrect_code := "e",
         correct_code := "f", expected_output := "", language := "c",
         order_index := 2 }]
      [{ id := "qa", quiz_id := "z1", title := "ta", incorrect_code := "a",
         correct_code := "b", expected_output := "", language := "c",
         order_index := 0 },
       { id := "qb", quiz_id := "z1", title := "tb", incorrect_code := "c",
         correct_code := "d", expected_output := "", language := "c",
         order_index := 1 },
       { id := "qc", quiz_id := "z1", title := "tc", incorrect_code := "e",
         correct_code := "f", expected_output := "", language := "c",
         order_index := 2 }]
    ≠ shuffleCount 3
      [{ id := "qa", quiz_id := "z1", title := "ta", incorrect_code := "a",
         correct_code := "b", expected_output := "", language := "c",
         order_index := 0 },
       { id := "qb", quiz_id := "z1", title := "tb", incorrect_code := "c",
         correct_code := "d", expected_output := "", language := "c",
         order_index := 1 },
       { id := "qc", quiz_id := "z1", title := "tc", incorrect_code := "e",
         correct_code := "f", expected_output := "", language := "c",
         order_index := 2 }]
      [{ id := "qb", quiz_id := "z1", title := "tb", incorrect_code := "c",
         correct_code := "d", expected_output := "", language := "c",
         order_index := 1 },
       { id := "qa", quiz_id := "z1", title := "ta", incorrect_code := "a",
         correct_code := "b", expected_output := "", language := "c",
         order_index := 0 },
       { id := "qc", quiz_id := "z1", title := "tc", incorrect_code := "e",
         correct_code := "f", expected_output := "", language := "c",
         order_index := 2 }] := by
  decide

/-- C9 amended: a first load with no persisted order produces a
(non-uniform, comparator-driven) pseudo-random permutation of the
quiz questions and persists one `question_orders` row per question with
`order_index` equal to the position in the permutation, marking the
assignment started and starting at index zero. -/
theorem c9_shuffle_persists_ranks (db : Db) (aid quizId : String)
    (coins : List Bool)
    (h : (orderRowsFor db aid).length = 0) :
    (fetchQuizData db aid quizId coins).questions.Perm
      (db.questions.filter (fun q => q.quiz_id == quizId)) ∧
    (fetchQuizData db aid quizId coins).db.question_orders
      = db.question_orders
        ++ (fetchQuizData db aid quizId coins).questions.enum.map (fun p =>
            { assignment_id := aid, question_id := p.2.id,
              order_index := p.1 : OrderRow }) ∧
    (fetchQuizData db aid quizId coins).markedStarted = true ∧
    (fetchQuizData db aid quizId coins).currentQuestionIndex = 0 := by
  unfold fetchQuizData
  dsimp only
  split
  · omega
  · exact ⟨coinInsertionSort_perm coins _, rfl, rfl, rfl⟩

/-- C9 amended witness. -/
theorem c9_amended_witness :
    (fetchQuizData
      { questions :=
          [{ id := "q1", quiz_id := "z1", title := "t1",
             incorrect_code := "a", correct_code := "b",
             expected_output := "", language := "c", order_index := 0 },
           { id := "q2", quiz_id := "z1", title := "t2",
             incorrect_code := "c", correct_code := "d",
             expected_output := "", language := "c", order_index := 1 }],
        question_orders := [], submissions := [] }
      "a1" "z1" [false]).questions.Perm
      (List.filter (fun q => q.quiz_id == "z1")
        [{ id := "q1", quiz_id := "z1", title := "t1",
           incorrect_code := "a", correct_code := "b",
           expected_output := "", language := "c", order_index := 0 },
         { id := "q2", quiz_id := "z1", title := "t2",
           incorrect_code := "c", correct_code := "d",
           expected_output := "", language := "c", order_index := 1 }]) ∧
    (fetchQuizData
      { questions :=
          [{ id := "q1", quiz_id := "z1", title := "t1",
             incorrect_code := "a", correct_code := "b",
             expected_output := "", language := "c", order_index := 0 },
           { id := "q2", quiz_id := "z1", title := "t2",
             incorrect_code := "c", correct_code := "d",
             expected_output := "", language := "c", order_index := 1 }],
        question_orders := [], submissions := [] }
      "a1" "z1" [false]).db.question_orders
      = [] ++ (fetchQuizData
          { questions :=
              [{ id := "q1", quiz_id := "z1", title := "t1",
                 incorrect_code := "a", correct_code := "b",
                 expected_output := "", language := "c", order_index := 0 },
               { id := "q2", quiz_id := "z1", title := "t2",
                 incorrect_code := "c", correct_code := "d",
                 expected_output := "", language := "c", order_index := 1 }],
            question_orders := [], submissions := [] }
          "a1" "z1" [false]).questions.enum.map (fun p =>
            { assignment_id := "a1", question_id := p.2.id,
              order_index := p.1 : OrderRow }) ∧
    (fetchQuizData
      { questions :=
          [{ id := "q1", quiz_id := "z1", title := "t1",
             incorrect_code := "a", correct_code := "b",
             expected_output := "", language := "c", order_index := 0 },
           { id := "q2", quiz_id := "z1", title := "t2",
             incorrect_code := "c", correct_code := "d",
             expected_output := "", language := "c", order_index := 1 }],
        question_orders := [], submissions := [] }
      "a1" "z1" [false]).markedStarted = true ∧
    (fetchQuizData
      { questions :=
          [{ id := "q1", quiz_id := "z1", title := "t1",
             incorrect_code := "a", correct_code := "b",
             expected_output := "", language := "c", order_index := 0 },
           { id := "q2", quiz_id := "z1", title := "t2",
             incorrect_code := "c", correct_code := "d",
             expected_output := "", language := "c", order_index := 1 }],
        question_orders := [], submissions := [] }
      "a1" "z1" [false]).currentQuestionIndex = 0 :=
  c9_shuffle_persists_ranks _ "a1" "z1" [false] (by decide)

end DebugArena
